import Mathlib

/-!
Verification of the session logic of `mask_app.py` (SAM2-GUI).

The development shallowly embeds the non-ML glue of the application:

* `PromptGUI` and its operations (`clear_points`, `add_new_mask`, `reset`,
  `set_img_dir`, `set_input_image`, `add_point`, `run_tracker`,
  `save_masks_to_dir`);
* the module-level helpers `isimage`, `get_hls_palette`, `compose_img_mask`.

Boolean object masks are 2-D `Bool` grids; the uint8 arrays produced by
`run_tracker` are either 0-dimensional scalars or 2-D grids (`NPArr`),
mirroring the possible shapes of `np.any(bool_masks, axis=0)`.  The external
SAM2 model is a black box: its per-call responses (a dict of per-object
boolean masks, or the stream of propagated frames) are inputs to the embedded
operations.  Python attribute errors and assertion failures are made explicit
through the `Err` type.  Image loading (`iio.imread`) is modelled by the path
of the image read, since pixel data of loaded frames is never inspected by the
session logic.  The `float64` arithmetic of `compose_img_mask` is embedded
exactly, as dyadic rationals with round-to-nearest-even at every operation.
-/

/-- Binary object mask as produced by the model adapter: a 2-D boolean grid. -/
abbrev Grid := List (List Bool)

/-- A numpy uint8 array as stored by `run_tracker`: either a 0-dimensional
scalar (the shape `np.any([], axis=0)` produces) or a 2-D grid. -/
inductive NPArr where
  | scalar (v : Nat)
  | grid (g : List (List Nat))
deriving Repr, DecidableEq

/-- Explicit model of the ways an embedded operation can fail: a Python
`AttributeError` on a missing attribute, a failed `assert`, a `ValueError`,
and the explicit "no active session" error that the specification names
(the source never raises this last one). -/
inductive Err where
  | attributeError (name : String)
  | assertionError
  | valueError (msg : String)
  | noActiveSession
deriving Repr, DecidableEq

/-- Index of the last occurrence of a character (CPython `str.rfind`):
the index of the rightmost occurrence, or `-1` when absent. -/
def rfindChar (c : Char) (l : List Char) : Int :=
  match l.reverse.findIdx? (fun x => x == c) with
  | none => -1
  | some i => ((l.length - 1 - i : Nat) : Int)

/-- Lowercasing as applied by the source (`str.lower` on ASCII names). -/
def pylower (s : String) : String :=
  String.mk (s.data.map Char.toLower)

/-- Extension part of `os.path.splitext` (POSIX): the suffix starting at the
last dot, provided at least one earlier character of the basename is not a
dot; otherwise the empty string. -/
def splitextExtension (p : String) : String :=
  let l := p.data
  let sepIndex := rfindChar '/' l
  let dotIndex := rfindChar '.' l
  if sepIndex < dotIndex then
    let start := (sepIndex + 1).toNat
    let body := (l.drop start).take (dotIndex.toNat - start)
    if body.any (fun ch => ch != '.') then String.mk (l.drop dotIndex.toNat)
    else ""
  else ""

/-- Source `isimage`: lowercase the name, take its `splitext` extension and
test membership in the allowed image extensions. -/
def isimage (p : String) : Bool :=
  let ext := splitextExtension (pylower p)
  ([".png", ".jpg", ".jpeg"] : List String).contains ext

/-- Stem of `pathlib.Path`: the final path component with its suffix removed
(the suffix is the part from the last dot when that dot is neither the first
nor the last character of the component). -/
def pathStem (p : String) : String :=
  let name := (p.data.reverse.takeWhile (fun ch => ch != '/')).reverse
  let i := rfindChar '.' name
  if 0 < i ∧ i < (name.length : Int) - 1 then String.mk (name.take i.toNat)
  else String.mk name

/-- Session state of `PromptGUI.__init__`.  `inference_state` is the SAM2
session handle: `none` models the attribute not having been assigned yet
(it is first assigned in `get_sam_features`); the handle itself is opaque.
Loaded images are represented by the path that `iio.imread` read. -/
structure PromptGUI where
  selected_points : List (Int × Int)
  selected_labels : List ℚ
  cur_label_val : ℚ
  frame_index : Nat
  image : Option String
  cur_mask_idx : Nat
  cur_masks : List (Nat × Grid)
  cur_logits : List (Nat × Grid)
  index_masks_all : List (List (List Nat))
  color_masks_all : List NPArr
  img_dir : String
  img_paths : List String
  inference_state : Option Unit
deriving Repr, DecidableEq

/-- The state constructed by `PromptGUI.__init__`. -/
def initGUI : PromptGUI :=
  { selected_points := []
    selected_labels := []
    cur_label_val := 1
    frame_index := 0
    image := none
    cur_mask_idx := 0
    cur_masks := []
    cur_logits := []
    index_masks_all := []
    color_masks_all := []
    img_dir := ""
    img_paths := []
    inference_state := none }

/-- Source `clear_points`: empties the accumulated points and labels. -/
def clear_points (s : PromptGUI) : PromptGUI :=
  { s with selected_points := [], selected_labels := [] }

/-- Source `add_new_mask`: increments the object-id counter, then clears the
pending points. -/
def add_new_mask (s : PromptGUI) : PromptGUI :=
  clear_points { s with cur_mask_idx := s.cur_mask_idx + 1 }

/-- Source `_clear_image`: clears the image and all per-image mask state.
Note that it does not touch `selected_points`, `selected_labels`,
`img_dir`, `img_paths` or the adapter session handle. -/
def clearImage (s : PromptGUI) : PromptGUI :=
  { s with image := none
           cur_mask_idx := 0
           frame_index := 0
           cur_masks := []
           cur_logits := []
           index_masks_all := []
           color_masks_all := [] }

/-- Source `reset`: runs `_clear_image`, then calls
`self.sam_model.reset_state(self.inference_state)`.  Reading
`self.inference_state` raises `AttributeError` when the attribute was never
assigned; the adapter call itself is an opaque external effect. -/
def reset (s : PromptGUI) : PromptGUI × Option Err :=
  let s1 := clearImage s
  (s1,
    match s1.inference_state with
    | none => some (Err.attributeError "inference_state")
    | some _ => none)

/-- Source `set_img_dir`: clears image state, records the directory and keeps
the image entries of the (Python-)sorted directory listing, each prefixed
with the directory; returns the number of kept paths.  `entries` is the
result of `os.listdir`. -/
def set_img_dir (dir : String) (entries : List String) (s : PromptGUI) :
    PromptGUI × Nat :=
  let s1 := clearImage s
  let paths :=
    ((entries.mergeSort (fun a b => decide (a ≤ b))).filter isimage).map
      (fun p => dir ++ "/" ++ p)
  ({ s1 with img_dir := dir, img_paths := paths }, paths.length)

/-- Source `set_input_image`: an index outside `[0, len(img_paths))` returns
the current image and changes nothing; an in-range index clears the pending
points, sets the frame index and loads (here: records the path of) the
selected frame. -/
def set_input_image (i : Int) (s : PromptGUI) : PromptGUI × Option String :=
  if i < 0 ∨ (s.img_paths.length : Int) ≤ i then (s, s.image)
  else
    let s1 := clear_points s
    let s2 := { s1 with frame_index := i.toNat }
    let img := s2.img_paths.getD i.toNat ""
    ({ s2 with image := some img }, some img)

/-- Source `get_sam_features`: creates the adapter session handle (assigns
`self.inference_state`) and resets it. -/
def get_sam_features (s : PromptGUI) : PromptGUI :=
  { s with inference_state := some () }

/-- Source `set_positive`. -/
def set_positive (s : PromptGUI) : PromptGUI :=
  { s with cur_label_val := 1 }

/-- Source `set_negative`. -/
def set_negative (s : PromptGUI) : PromptGUI :=
  { s with cur_label_val := 0 }

/-- Source `make_index_mask`: asserts the dict of per-object masks is
nonempty, starts from the first mask cast to uint8 (0/1) and overwrites, for
every object id `i`, the pixels of its mask with `i + 1`. -/
def make_index_mask (masks : List (Nat × Grid)) : Option (List (List Nat)) :=
  match masks with
  | [] => none
  | (_, m0) :: _ =>
    let init := m0.map (fun row => row.map (fun b => if b then 1 else 0))
    some (masks.foldl
      (fun acc p =>
        acc.zipWith
          (fun ra rm => ra.zipWith (fun a b => if b then p.1 + 1 else a) rm)
          p.2)
      init)

/-- Source `add_point`: appends the clicked point `[j, i]` and the current
label, then queries the adapter (`get_sam_mask`).  The adapter call reads
`self.inference_state`, raising `AttributeError` when it was never assigned;
otherwise the adapter's response `resp` (its dict of per-object boolean
masks) is fed to `make_index_mask`, whose `assert` fails on an empty
response. -/
def add_point (resp : List (Nat × Grid)) (i j : Int) (s : PromptGUI) :
    PromptGUI × Except Err (List (List Nat)) :=
  let s1 := { s with selected_points := s.selected_points ++ [(j, i)]
                     selected_labels := s.selected_labels ++ [s.cur_label_val] }
  (s1,
    match s1.inference_state with
    | none => Except.error (Err.attributeError "inference_state")
    | some _ =>
      match make_index_mask resp with
      | none => Except.error Err.assertionError
      | some m => Except.ok m)

deriving instance DecidableEq for Except

/-- Elementwise OR of two boolean grids (`np.any` over a stack of equally
shaped 2-D arrays reduces them by elementwise OR). -/
def gridOr (a b : Grid) : Grid :=
  List.zipWith (fun ra rb => List.zipWith or ra rb) a b

/-- The body of `(~binary).astype(np.uint8) * 255`: a foreground pixel
(`true`) becomes 0 and a background pixel becomes 255. -/
def toGray (g : Grid) : List (List Nat) :=
  g.map (fun row => row.map (fun b => if b then 0 else 255))

/-- One frame of `run_tracker`'s loop body: `np.any(bool_masks, axis=0)`
followed by `(~binary).astype(np.uint8) * 255`.  An empty list of per-object
masks makes `np.any` produce the 0-dimensional scalar `False`, hence the
stored value is the 0-dimensional scalar 255. -/
def frameCollapse (ms : List Grid) : NPArr :=
  match ms with
  | [] => NPArr.scalar 255
  | m :: rest => NPArr.grid (toGray (rest.foldl gridOr m))

/-- Python dict assignment `d[k] = v`: replaces in place when the key is
present, otherwise appends (insertion order is preserved). -/
def dictInsert (d : List (Nat × NPArr)) (k : Nat) (v : NPArr) :
    List (Nat × NPArr) :=
  if d.any (fun p => p.1 == k) then
    d.map (fun p => if p.1 == k then (k, v) else p)
  else d ++ [(k, v)]

/-- Python dict read `d[k]` for a key known to be present. -/
def dictLookup (d : List (Nat × NPArr)) (k : Nat) : NPArr :=
  match d with
  | [] => NPArr.scalar 0
  | p :: rest => if p.1 == k then p.2 else dictLookup rest k

/-- Pure core of `run_tracker`: `prop` is the finite stream the adapter's
`propagate_in_video` yields, one `(frame_idx, per-object boolean masks)`
pair per step.  Each frame's masks are collapsed and stored in a dict keyed
by frame index, and the dict is read out on its sorted keys
(`[video_masks[i] for i in sorted(video_masks)]`). -/
def runTracker (prop : List (Nat × List Grid)) : List NPArr :=
  let d := prop.foldl (fun d fr => dictInsert d fr.1 (frameCollapse fr.2)) []
  ((d.map Prod.fst).mergeSort (fun a b => decide (a ≤ b))).map
    (fun i => dictLookup d i)

/-- Source `run_tracker` at the session level: reads the adapter handle
(`AttributeError` when absent) and stores the collapsed masks. -/
def run_tracker (prop : List (Nat × List Grid)) (s : PromptGUI) :
    PromptGUI × Option Err :=
  match s.inference_state with
  | none => (s, some (Err.attributeError "inference_state"))
  | some _ => ({ s with color_masks_all := runTracker prop }, none)

/-- Truthiness of a numpy array under `mask.any()`. -/
def npAny : NPArr → Bool
  | NPArr.scalar v => v != 0
  | NPArr.grid g => g.any (fun row => row.any (fun v => v != 0))

/-- Outcome of `save_masks_to_dir`: the returned (or raised) message, whether
`os.makedirs` ran, and the files written (name and contents), in order. -/
structure SaveOutcome where
  message : String
  madeDir : Bool
  writes : List (String × List (List Nat))
  error : Option Err
deriving Repr, DecidableEq

/-- The write loop of `save_masks_to_dir` over `zip(self.img_paths, masks)`:
raises `ValueError` at the first mask that is not 2-dimensional, keeping the
files already written. -/
def writeLoop : List (String × NPArr) → List (String × List (List Nat)) × Option Err
  | [] => ([], none)
  | (p, m) :: rest =>
    match m with
    | NPArr.scalar _ => ([], some (Err.valueError "Expected 2-D mask"))
    | NPArr.grid g =>
      let r := writeLoop rest
      ((pathStem p ++ ".mask.png", g) :: r.1, r.2)

/-- Source `save_masks_to_dir`.  Refuses (without touching the filesystem)
when the mask list is empty, or when every mask is entirely zero; otherwise
creates the output directory and writes one single-channel mask file per
zipped `(img_path, mask)` pair. -/
def save_masks_to_dir (img_paths : List String) (masks : List NPArr)
    (output_dir : String) : SaveOutcome :=
  if masks.isEmpty then
    { message := "No masks to export. Did you run tracking first?"
      madeDir := false, writes := [], error := none }
  else if !(masks.any npAny) then
    { message := "All masks are empty – nothing to save."
      madeDir := false, writes := [], error := none }
  else
    let r := writeLoop (img_paths.zip masks)
    { message :=
        match r.2 with
        | some _ => ""
        | none =>
          "Saved " ++ toString masks.length ++ " masks to " ++ output_dir ++ "!"
      madeDir := true, writes := r.1, error := r.2 }

/-- Exact `colorsys.hls_to_rgb` over the rationals. -/
def hlsComponent (m1 m2 hue : ℚ) : ℚ :=
  let h := hue - ⌊hue⌋
  if h < 1 / 6 then m1 + (m2 - m1) * h * 6
  else if h < 1 / 2 then m2
  else if h < 2 / 3 then m1 + (m2 - m1) * (2 / 3 - h) * 6
  else m1

/-- Exact `colorsys.hls_to_rgb` over the rationals. -/
def hls_to_rgb (h l s : ℚ) : ℚ × ℚ × ℚ :=
  if s = 0 then (l, l, l)
  else
    let m2 := if l ≤ 1 / 2 then l * (1 + s) else l + s - l * s
    let m1 := 2 * l - m2
    (hlsComponent m1 m2 (h + 1 / 3), hlsComponent m1 m2 h,
      hlsComponent m1 m2 (h - 1 / 3))

/-- Conversion `(255 * value).astype("uint8")` for a value in `[0, 1]`:
truncation toward zero. -/
def to255 (v : ℚ) : Nat := (⌊(255 : ℚ) * v⌋).toNat

/-- Source `get_hls_palette`: `np.linspace(0, 1, n + 1)[1:-1]` yields the
hues `i / n` for `1 ≤ i ≤ n - 1`; the palette is black followed by the HLS
conversions of those hues, scaled to `0..255`. -/
def get_hls_palette (n_colors : Nat) (lightness saturation : ℚ) :
    List (Nat × Nat × Nat) :=
  let hues :=
    (((List.range (n_colors + 1)).map
      (fun i : Nat => (i : ℚ) / (n_colors : ℚ))).drop 1).dropLast
  let palette : List (ℚ × ℚ × ℚ) :=
    (0, 0, 0) :: hues.map (fun h => hls_to_rgb h lightness saturation)
  palette.map (fun t => (to255 t.1, to255 t.2.1, to255 t.2.2))

/-- An IEEE-754 binary64 value, represented exactly as the dyadic rational
`m * 2 ^ e`.  All magnitudes arising in `compose_img_mask` lie well inside
the normal range, so overflow and subnormals never occur. -/
structure Fl where
  m : Int
  e : Int
deriving Repr, DecidableEq

/-- Scale the exact fraction `n / d` (both positive) until the fraction lies
in `[2^52, 2^53)`, recording the binary exponent. -/
def normQ : Nat → Nat → Nat → Int → Nat × Nat × Int
  | 0, n, d, e => (n, d, e)
  | fuel + 1, n, d, e =>
    if n < 4503599627370496 * d then normQ fuel (2 * n) d (e - 1)
    else if 9007199254740992 * d ≤ n then normQ fuel n (2 * d) (e + 1)
    else (n, d, e)

/-- Round the positive fraction `n / d` to the nearest binary64 value
(round half to even). -/
def rndQpos (n d : Nat) : Fl :=
  let t := normQ 1000 n d 0
  let m0 := t.1 / t.2.1
  let r := t.1 % t.2.1
  let m : Nat :=
    if 2 * r < t.2.1 then m0
    else if t.2.1 < 2 * r then m0 + 1
    else if m0 % 2 = 0 then m0 else m0 + 1
  if m = 9007199254740992 then ⟨4503599627370496, t.2.2 + 1⟩
  else ⟨(m : Int), t.2.2⟩

/-- Round the fraction `n / d` (`d > 0`) to the nearest binary64 value. -/
def rndQ (n : Int) (d : Nat) : Fl :=
  if n = 0 then ⟨0, 0⟩
  else if 0 < n then rndQpos n.toNat d
  else
    let f := rndQpos (-n).toNat d
    ⟨-f.m, f.e⟩

/-- The rational value denoted by a binary64 representation. -/
def Fl.toQ (x : Fl) : ℚ :=
  if 0 ≤ x.e then (x.m : ℚ) * 2 ^ x.e.toNat else (x.m : ℚ) / 2 ^ (-x.e).toNat

/-- Round `(n / d) * 2 ^ e` (`d > 0`) to the nearest binary64 value: rounding
commutes with scaling by a power of two inside the normal range. -/
def rndScaled (n : Int) (d : Nat) (e : Int) : Fl :=
  let f := rndQ n d
  if f.m = 0 then ⟨0, 0⟩ else ⟨f.m, f.e + e⟩

/-- Binary64 addition: align the dyadic summands, add exactly, round once. -/
def fadd (x y : Fl) : Fl :=
  let e0 := min x.e y.e
  rndScaled (x.m * 2 ^ (x.e - e0).toNat + y.m * 2 ^ (y.e - e0).toNat) 1 e0

/-- Binary64 negation (exact). -/
def fneg (x : Fl) : Fl := ⟨-x.m, x.e⟩

/-- Binary64 subtraction: exact difference, rounded once. -/
def fsub (x y : Fl) : Fl := fadd x (fneg y)

/-- Binary64 multiplication: exact product, rounded once. -/
def fmul (x y : Fl) : Fl := rndScaled (x.m * y.m) 1 (x.e + y.e)

/-- Binary64 division: the exact quotient rounded once.  (The embedded code
only ever divides by the constant 255.) -/
def fdiv (x y : Fl) : Fl :=
  let n := if y.m < 0 then -x.m else x.m
  rndScaled n y.m.natAbs (x.e - y.e)

/-- Truncation toward zero of a non-negative binary64 value, as performed by
`astype("uint8")` on the values (all in `[0, 256)`) arising here. -/
def Fl.truncNonneg (x : Fl) : Int :=
  if 0 ≤ x.e then x.m * 2 ^ x.e.toNat
  else ((x.m.toNat / 2 ^ (-x.e).toNat : Nat) : Int)

/-- Source `compose_img_mask` at one pixel, following the float64 evaluation
order of `fac * img / 255 + (1 - fac) * color_mask / 255` and the final
`(255 * out_f).astype("uint8")`; every numpy operation is elementwise, so
the array computation is this function applied pixel-wise. -/
def composePixel (fac : Fl) (img mask : Nat) : Int :=
  let t := fdiv (fmul fac ⟨(img : Int), 0⟩) ⟨255, 0⟩
  let u := fdiv (fmul (fsub ⟨1, 0⟩ fac) ⟨(mask : Int), 0⟩) ⟨255, 0⟩
  let out_f := fadd t u
  (fmul ⟨255, 0⟩ out_f).truncNonneg

/-- Source `compose_img_mask` on whole (equally shaped) uint8 arrays. -/
def compose_img_mask (fac : Fl) (img mask : List (List Nat)) :
    List (List Int) :=
  List.zipWith (fun ri rm => List.zipWith (composePixel fac) ri rm) img mask

/-- Pixel read of a boolean grid (in-range reads only are ever relevant). -/
def px (g : Grid) (r c : Nat) : Bool := (g.getD r []).getD c false

/-- Pixel read of a uint8 grid (in-range reads only are ever relevant). -/
def pxN (g : List (List Nat)) (r c : Nat) : Nat := (g.getD r []).getD c 0

/-- A grid has `H` rows that all have width `W`. -/
def GridDims (H W : Nat) (g : Grid) : Prop :=
  g.length = H ∧ ∀ row ∈ g, row.length = W

/-- One GUI-driven operation on the session state.  Responses of the external
model (the per-object mask dict of `add_new_points_or_box`, the propagation
stream) and the directory listing are inputs from the environment and travel
with the operation. -/
inductive Op where
  | addPoint (resp : List (Nat × Grid)) (i j : Int)
  | clearPoints
  | addNewMask
  | setInputImage (i : Int)
  | setImgDir (dir : String) (entries : List String)
  | reset
  | getSamFeatures
  | setPositive
  | setNegative
  | runTracker (prop : List (Nat × List Grid))

/-- State reached after one operation (exceptions leave the mutated state). -/
def step (s : PromptGUI) : Op → PromptGUI
  | Op.addPoint resp i j => (add_point resp i j s).1
  | Op.clearPoints => clear_points s
  | Op.addNewMask => add_new_mask s
  | Op.setInputImage i => (set_input_image i s).1
  | Op.setImgDir dir entries => (set_img_dir dir entries s).1
  | Op.reset => (reset s).1
  | Op.getSamFeatures => get_sam_features s
  | Op.setPositive => set_positive s
  | Op.setNegative => set_negative s
  | Op.runTracker prop => (run_tracker prop s).1

/-- The session state reached from `__init__` by a sequence of operations. -/
def runOps (ops : List Op) : PromptGUI := ops.foldl step initGUI


/-! ### Helper lemmas -/

/-- Sorting an already (weakly) sorted list of naturals is the identity. -/
theorem mergeSortLe_sorted_id (l : List Nat)
    (h : List.Pairwise (· ≤ ·) l) :
    l.mergeSort (fun a b => decide (a ≤ b)) = l := by
  refine List.eq_of_perm_of_sorted (List.mergeSort_perm l _) ?_ h
  have hs := @List.sorted_mergeSort Nat (fun a b => decide (a ≤ b))
    (fun a b c hab hbc => by
      simp only [decide_eq_true_eq] at *
      exact le_trans hab hbc)
    (fun a b => by
      simp only [Bool.or_eq_true, decide_eq_true_eq]
      exact Nat.le_total a b) l
  exact hs.imp (fun hab => by simpa using hab)

/-- Inserting a fresh key into the dict model appends it. -/
theorem dictInsert_fresh (d : List (Nat × NPArr)) (k : Nat) (v : NPArr)
    (h : ∀ p ∈ d, p.1 ≠ k) :
    dictInsert d k v = d ++ [(k, v)] := by
  unfold dictInsert
  have : d.any (fun p => p.1 == k) = false := by
    simp only [List.any_eq_false]
    intro p hp
    simpa using h p hp
  simp [this]

/-- Folding dict assignments over pairwise-distinct fresh keys just appends
the key-value pairs in order. -/
theorem foldl_dictInsert_eq (f : Nat × List Grid → NPArr) :
    ∀ (prop : List (Nat × List Grid)) (d0 : List (Nat × NPArr)),
    (∀ fr ∈ prop, ∀ p ∈ d0, p.1 ≠ fr.1) →
    (prop.map Prod.fst).Nodup →
    prop.foldl (fun d fr => dictInsert d fr.1 (f fr)) d0 =
      d0 ++ prop.map (fun fr => (fr.1, f fr))
  | [], d0, _, _ => by simp
  | fr :: rest, d0, hfresh, hnodup => by
    have h1 : dictInsert d0 fr.1 (f fr) = d0 ++ [(fr.1, f fr)] :=
      dictInsert_fresh d0 fr.1 (f fr)
        (fun p hp => hfresh fr (by simp) p hp)
    have hcons := List.nodup_cons.mp (by simpa only [List.map_cons] using hnodup)
    have hnd : (rest.map Prod.fst).Nodup := hcons.2
    have hhead : fr.1 ∉ rest.map Prod.fst := hcons.1
    have hfresh2 : ∀ fr2 ∈ rest, ∀ p ∈ d0 ++ [(fr.1, f fr)], p.1 ≠ fr2.1 := by
      intro fr2 hfr2 p hp
      rcases List.mem_append.mp hp with hp0 | hp1
      · exact hfresh fr2 (by simp [hfr2]) p hp0
      · have hp2 : p = (fr.1, f fr) := by simpa using hp1
        subst hp2
        intro hcontra
        exact hhead (by
          simp only [List.mem_map]
          exact ⟨fr2, hfr2, hcontra.symm⟩)
    have ih := foldl_dictInsert_eq f rest (d0 ++ [(fr.1, f fr)]) hfresh2 hnd
    simp only [List.foldl_cons, h1, ih, List.append_assoc, List.singleton_append,
      List.map_cons]

/-- Reading a nodup-keyed dict back on its own key list yields its values. -/
theorem dictLookup_keys_map :
    ∀ (d : List (Nat × NPArr)), (d.map Prod.fst).Nodup →
    (d.map Prod.fst).map (fun k => dictLookup d k) = d.map Prod.snd
  | [], _ => by simp
  | (k, v) :: rest, hnodup => by
    have hhead : k ∉ rest.map Prod.fst :=
      (List.nodup_cons.mp (by simpa only [List.map_cons] using hnodup)).1
    have hnd : (rest.map Prod.fst).Nodup :=
      (List.nodup_cons.mp (by simpa only [List.map_cons] using hnodup)).2
    have hk : dictLookup ((k, v) :: rest) k = v := by
      simp [dictLookup]
    have htail : (rest.map Prod.fst).map (fun j => dictLookup ((k, v) :: rest) j) =
        (rest.map Prod.fst).map (fun j => dictLookup rest j) := by
      refine List.map_congr_left ?_
      intro j hj
      have hjk : ¬(k == j) = true := by
        simp only [beq_iff_eq]
        intro hcontra
        exact hhead (hcontra ▸ hj)
      simp [dictLookup, hjk]
    simp only [List.map_cons, hk, htail, dictLookup_keys_map rest hnd]

/-- When the adapter yields exactly the frame indices `0, …, k-1` in order,
`run_tracker`'s dict-and-sort bookkeeping reduces to mapping the per-frame
collapse over the stream. -/
theorem runTracker_eq_map (prop : List (Nat × List Grid)) (k : Nat)
    (hidx : prop.map Prod.fst = List.range k) :
    runTracker prop = prop.map (fun fr => frameCollapse fr.2) := by
  unfold runTracker
  have hnodup : (prop.map Prod.fst).Nodup := by
    rw [hidx]; exact List.nodup_range k
  have hbuild := foldl_dictInsert_eq (fun fr => frameCollapse fr.2) prop []
    (by simp) hnodup
  rw [hbuild]
  simp only [List.nil_append]
  have hkeys : (prop.map (fun fr => (fr.1, frameCollapse fr.2))).map Prod.fst =
      prop.map Prod.fst := by
    simp [List.map_map, Function.comp]
  have hkeys2 : (prop.map (fun fr => (fr.1, frameCollapse fr.2))).map Prod.fst =
      List.range k := hkeys.trans hidx
  rw [hkeys2, mergeSortLe_sorted_id _ (List.pairwise_le_range k), ← hkeys2,
    dictLookup_keys_map _ (by rw [hkeys2]; exact List.nodup_range k)]
  simp [List.map_map, Function.comp]

/-- Reading a `zipWith` at an in-range index reads both inputs there. -/
theorem getD_zipWith {α β γ : Type} (f : α → β → γ) :
    ∀ (l₁ : List α) (l₂ : List β) (n : Nat) (d₁ : α) (d₂ : β) (d₃ : γ),
    n < l₁.length → n < l₂.length →
    (List.zipWith f l₁ l₂).getD n d₃ = f (l₁.getD n d₁) (l₂.getD n d₂)
  | [], _, n, _, _, _, h₁, _ => by simp at h₁
  | _ :: _, [], n, _, _, _, _, h₂ => by simp at h₂
  | a :: l₁, b :: l₂, 0, d₁, d₂, d₃, _, _ => by simp [List.getD]
  | a :: l₁, b :: l₂, n + 1, d₁, d₂, d₃, h₁, h₂ => by
    simpa [List.getD] using getD_zipWith f l₁ l₂ n d₁ d₂ d₃
      (by simpa using h₁) (by simpa using h₂)

/-- Elementwise OR preserves the dimensions of equally shaped grids. -/
theorem gridOr_dims {H W : Nat} {a b : Grid}
    (ha : GridDims H W a) (hb : GridDims H W b) :
    GridDims H W (gridOr a b) := by
  constructor
  · simp [gridOr, List.length_zipWith, ha.1, hb.1]
  · intro row hrow
    rcases List.mem_iff_getElem.mp hrow with ⟨i, hi, hrow_eq⟩
    have hlen : (gridOr a b).length = H := by
      simp [gridOr, List.length_zipWith, ha.1, hb.1]
    rw [hlen] at hi
    have hia : i < a.length := ha.1 ▸ hi
    have hib : i < b.length := hb.1 ▸ hi
    have hrow2 : row = List.zipWith or (a.getD i []) (b.getD i []) := by
      rw [← hrow_eq, ← List.getD_eq_getElem _ [] (hlen ▸ hi)]
      exact getD_zipWith _ a b i [] [] [] hia hib
    have hwa : (a.getD i []).length = W := by
      rw [List.getD_eq_getElem _ _ hia]
      exact ha.2 _ (List.getElem_mem hia)
    have hwb : (b.getD i []).length = W := by
      rw [List.getD_eq_getElem _ _ hib]
      exact hb.2 _ (List.getElem_mem hib)
    rw [hrow2, List.length_zipWith, hwa, hwb, min_self]

/-- Pixel view of the elementwise OR of equally shaped grids. -/
theorem px_gridOr {H W r c : Nat} {a b : Grid}
    (ha : GridDims H W a) (hb : GridDims H W b) (hr : r < H) (hc : c < W) :
    px (gridOr a b) r c = (px a r c || px b r c) := by
  have hra : r < a.length := ha.1 ▸ hr
  have hrb : r < b.length := hb.1 ▸ hr
  have houter : (gridOr a b).getD r [] =
      List.zipWith or (a.getD r []) (b.getD r []) :=
    getD_zipWith _ a b r [] [] [] hra hrb
  have hwa : (a.getD r []).length = W := by
    rw [List.getD_eq_getElem _ _ hra]
    exact ha.2 _ (List.getElem_mem hra)
  have hwb : (b.getD r []).length = W := by
    rw [List.getD_eq_getElem _ _ hrb]
    exact hb.2 _ (List.getElem_mem hrb)
  unfold px
  rw [houter]
  exact getD_zipWith or _ _ c false false false (hwa ▸ hc) (hwb ▸ hc)

/-- A fold of elementwise ORs over equally shaped grids keeps the shape. -/
theorem foldl_gridOr_dims {H W : Nat} :
    ∀ (ms : List Grid) (m0 : Grid), GridDims H W m0 →
    (∀ m ∈ ms, GridDims H W m) → GridDims H W (ms.foldl gridOr m0)
  | [], m0, h0, _ => by simpa using h0
  | m :: ms, m0, h0, hms => by
    simp only [List.foldl_cons]
    exact foldl_gridOr_dims ms (gridOr m0 m)
      (gridOr_dims h0 (hms m (by simp)))
      (fun m2 hm2 => hms m2 (by simp [hm2]))

/-- Pixel view of the OR-fold: a pixel of the fold is set exactly when the
pixel is set in the seed or in any of the folded grids. -/
theorem px_foldl_gridOr {H W r c : Nat} (hr : r < H) (hc : c < W) :
    ∀ (ms : List Grid) (m0 : Grid), GridDims H W m0 →
    (∀ m ∈ ms, GridDims H W m) →
    px (ms.foldl gridOr m0) r c = (px m0 r c || ms.any (fun m => px m r c))
  | [], m0, _, _ => by simp
  | m :: ms, m0, h0, hms => by
    simp only [List.foldl_cons, List.any_cons]
    rw [px_foldl_gridOr hr hc ms (gridOr m0 m)
      (gridOr_dims h0 (hms m (by simp)))
      (fun m2 hm2 => hms m2 (by simp [hm2]))]
    rw [px_gridOr h0 (hms m (by simp)) hr hc, Bool.or_assoc]

/-- Pixel view of the conversion `(~binary).astype(np.uint8) * 255`. -/
theorem pxN_toGray {H W r c : Nat} (g : Grid) (hg : GridDims H W g)
    (hr : r < H) (hc : c < W) :
    pxN (toGray g) r c = if px g r c then 0 else 255 := by
  have hrg : r < g.length := hg.1 ▸ hr
  have hrt : r < (toGray g).length := by simpa [toGray] using hrg
  have hrow : (toGray g).getD r [] =
      (g.getD r []).map (fun b => if b then (0 : Nat) else 255) := by
    rw [List.getD_eq_getElem _ [] hrt, List.getD_eq_getElem _ [] hrg]
    simp [toGray]
  have hcw : c < (g.getD r []).length := by
    rw [List.getD_eq_getElem _ [] hrg, hg.2 _ (List.getElem_mem hrg)]
    exact hc
  have hcw2 : c <
      ((g.getD r []).map (fun b => if b then (0 : Nat) else 255)).length := by
    simpa using hcw
  unfold pxN px
  rw [hrow, List.getD_eq_getElem _ 0 hcw2, List.getElem_map,
    List.getD_eq_getElem _ false hcw]

/-- Per-frame collapse of a nonempty, equally shaped stack of object masks:
the result is a 2-D grid whose pixel is 0 exactly where some object mask is
set, and 255 where none is. -/
theorem frameCollapse_pixel {H W : Nat} (ms : List Grid) (hne : ms ≠ [])
    (hdims : ∀ m ∈ ms, GridDims H W m) :
    ∃ g, frameCollapse ms = NPArr.grid g ∧
      ∀ r, r < H → ∀ c, c < W →
        pxN g r c = if ms.any (fun m => px m r c) then 0 else 255 := by
  match ms, hne with
  | m0 :: rest, _ =>
    refine ⟨toGray (rest.foldl gridOr m0), rfl, ?_⟩
    intro r hr c hc
    have h0 : GridDims H W m0 := hdims m0 (by simp)
    have hrest : ∀ m ∈ rest, GridDims H W m :=
      fun m hm => hdims m (by simp [hm])
    rw [pxN_toGray _ (foldl_gridOr_dims rest m0 h0 hrest) hr hc,
      px_foldl_gridOr hr hc rest m0 h0 hrest, List.any_cons]

/-- When every zipped mask is a 2-D grid, the write loop raises nothing,
writes one file per pair, and writes the expected file for each pair. -/
theorem writeLoop_all_grids :
    ∀ (l : List (String × NPArr)),
    (∀ pm ∈ l, ∃ g, pm.2 = NPArr.grid g) →
    (writeLoop l).2 = none ∧ (writeLoop l).1.length = l.length ∧
    ∀ pm ∈ l, ∀ g, pm.2 = NPArr.grid g →
      (pathStem pm.1 ++ ".mask.png", g) ∈ (writeLoop l).1
  | [], _ => by simp [writeLoop]
  | (p, m) :: rest, hall => by
    rcases hall (p, m) (by simp) with ⟨g, hg⟩
    simp only at hg
    subst hg
    have ih := writeLoop_all_grids rest (fun pm hpm => hall pm (by simp [hpm]))
    refine ⟨by simp [writeLoop, ih.1], by simp [writeLoop, ih.2.1], ?_⟩
    intro pm hpm g2 hg2
    rcases List.mem_cons.mp hpm with hpm | hpm
    · subst hpm
      simp only at hg2
      cases hg2
      simp [writeLoop]
    · have := ih.2.2 pm hpm g2 hg2
      simp [writeLoop, this]

/-- The float64 difference `1.0 - 1.0` is exactly zero. -/
theorem fsub_one_one : fsub ⟨1, 0⟩ ⟨1, 0⟩ = ⟨0, 0⟩ := by decide

/-- Multiplying float64 zero by anything gives zero. -/
theorem fmul_zero_left (y : Fl) : fmul ⟨0, 0⟩ y = ⟨0, 0⟩ := by
  simp [fmul, rndScaled, rndQ]

/-- Dividing float64 zero by 255 gives zero. -/
theorem fdiv_zero_255 : fdiv ⟨0, 0⟩ ⟨255, 0⟩ = ⟨0, 0⟩ := by decide

/-- With blend factor exactly 1.0 the mask term vanishes identically, so the
output pixel does not depend on the mask pixel. -/
theorem composePixel_one_eq (a b : Nat) :
    composePixel ⟨1, 0⟩ a b = composePixel ⟨1, 0⟩ a 0 := by
  simp only [composePixel, fsub_one_one, fmul_zero_left, fdiv_zero_255]

/-- With blend factor exactly 0.0 the image term vanishes identically, so the
output pixel does not depend on the image pixel. -/
theorem composePixel_zero_eq (a b : Nat) :
    composePixel ⟨0, 0⟩ a b = composePixel ⟨0, 0⟩ 0 b := by
  simp only [composePixel, fmul_zero_left, fdiv_zero_255]

set_option maxRecDepth 100000

/-- The float64 round trip `255 * (1.0 * k / 255 + 0)` truncates back to `k`
for every uint8 value `k`. -/
theorem composePixel_one_diag :
    ∀ a : Fin 256, composePixel ⟨1, 0⟩ (a : Nat) 0 = (a : Nat) := by decide

/-- The float64 round trip `255 * (0 + 1.0 * k / 255)` truncates back to `k`
for every uint8 value `k`. -/
theorem composePixel_zero_diag :
    ∀ b : Fin 256, composePixel ⟨0, 0⟩ 0 (b : Nat) = (b : Nat) := by decide

/-- Every session operation preserves equality of the lengths of the
accumulated point and label sequences. -/
theorem step_preserves_points_labels (s : PromptGUI) (op : Op)
    (h : s.selected_points.length = s.selected_labels.length) :
    (step s op).selected_points.length = (step s op).selected_labels.length := by
  cases op with
  | addPoint resp i j => simp [step, add_point, h]
  | clearPoints => simp [step, clear_points]
  | addNewMask => simp [step, add_new_mask, clear_points]
  | setInputImage i =>
    by_cases hcond : i < 0 ∨ (s.img_paths.length : Int) ≤ i
    · simp [step, set_input_image, hcond, h]
    · simp [step, set_input_image, hcond, clear_points]
  | setImgDir dir entries => simp [step, set_img_dir, clearImage, h]
  | reset => simp [step, reset, clearImage, h]
  | getSamFeatures => simp [step, get_sam_features, h]
  | setPositive => simp [step, set_positive, h]
  | setNegative => simp [step, set_negative, h]
  | runTracker prop =>
    cases hsi : s.inference_state <;> simp [step, run_tracker, hsi, h]

/-! ### Claim theorems -/

/-- C1 counterexample: a frame whose single object mask is true at its pixel
is stored as 0, not 255 — `run_tracker` inverts the OR-collapse before the
0/255 conversion, so the claim's "foreground pixels become 255" is false. -/
theorem C1_counterexample :
    runTracker [(0, [[[true]]])] = [NPArr.grid [[0]]] ∧
    runTracker [(0, [[[true]]])] ≠ [NPArr.grid [[255]]] := by
  have h : runTracker [(0, [[[true]]])] = [NPArr.grid [[0]]] := by
    simp [runTracker, dictInsert, frameCollapse, toGray, dictLookup,
      List.mergeSort_singleton]
  exact ⟨h, by rw [h]; decide⟩

/-- C1 (amended): over a propagation stream that yields the frame indices
`0, …, k-1` in order, `run_tracker` stores one mask per frame in frame
order, each frame's mask being the logical OR of that frame's per-object
masks, inverted, then scaled to 0/255: a pixel is 0 exactly when at least
one object's mask is true there and 255 otherwise. -/
theorem C1_run_tracker_or_inverted (prop : List (Nat × List Grid)) (k : Nat)
    (hidx : prop.map Prod.fst = List.range k) :
    (runTracker prop).length = k ∧
    runTracker prop = prop.map (fun fr => frameCollapse fr.2) ∧
    ∀ fr ∈ prop, ∀ H W : Nat, fr.2 ≠ [] → (∀ m ∈ fr.2, GridDims H W m) →
      ∃ g, frameCollapse fr.2 = NPArr.grid g ∧
        ∀ r, r < H → ∀ c, c < W →
          pxN g r c = if fr.2.any (fun m => px m r c) then 0 else 255 := by
  have hmap := runTracker_eq_map prop k hidx
  refine ⟨?_, hmap, ?_⟩
  · have hlen := congrArg List.length hidx
    simpa [hmap] using hlen
  · intro fr _ H W hne hdims
    exact frameCollapse_pixel fr.2 hne hdims

/-- C1 witness: the amended theorem applied to a one-frame stream whose only
object mask is `[[true, false]]`. -/
theorem C1_witness :
    (runTracker [(0, [[[true, false]]])]).length = 1 ∧
    runTracker [(0, [[[true, false]]])] = [NPArr.grid [[0, 255]]] := by
  have h := C1_run_tracker_or_inverted [(0, [[[true, false]]])] 1 (by decide)
  refine ⟨h.1, ?_⟩
  rw [h.2.1]
  decide

/-- C2 (code_bug evidence): loading a frame directory into a fresh session
and then calling `reset` does clear every state component the claim lists,
but the call itself raises `AttributeError` instead of succeeding, because
`self.inference_state` is only assigned in `get_sam_features`. -/
theorem C2_reset_after_load :
    (reset (set_img_dir "d" ["a.png"] initGUI).1).2 =
      some (Err.attributeError "inference_state") ∧
    (reset (set_img_dir "d" ["a.png"] initGUI).1).1.cur_mask_idx = 0 ∧
    (reset (set_img_dir "d" ["a.png"] initGUI).1).1.selected_points = [] ∧
    (reset (set_img_dir "d" ["a.png"] initGUI).1).1.selected_labels = [] ∧
    (reset (set_img_dir "d" ["a.png"] initGUI).1).1.cur_masks = [] ∧
    (reset (set_img_dir "d" ["a.png"] initGUI).1).1.cur_logits = [] ∧
    (reset (set_img_dir "d" ["a.png"] initGUI).1).1.index_masks_all = [] ∧
    (reset (set_img_dir "d" ["a.png"] initGUI).1).1.color_masks_all = [] := by
  simp [set_img_dir, clearImage, initGUI, List.mergeSort_singleton, reset]

/-- C3 counterexample: a one-frame session with one pending point; selecting
the out-of-range frame index 7 neither clamps nor clears — the pending point
survives, refuting "clamps … and clears the pending points". -/
theorem C3_counterexample :
    (set_input_image 7
      ((add_point [] 2 3 (set_img_dir "d" ["a.png"] initGUI).1).1)).1.selected_points
        ≠ [] ∧
    (set_input_image 7
      ((add_point [] 2 3 (set_img_dir "d" ["a.png"] initGUI).1).1)).1.frame_index
        = 0 := by
  simp only [set_img_dir, clearImage, initGUI, List.mergeSort_singleton,
    add_point, set_input_image, clear_points]
  decide

/-- C3 (amended): an in-range index selects the frame and clears the pending
points; an out-of-range index (negative or `≥ k`) is ignored — the state is
returned unchanged (no clamping, no clearing) together with the current
image. -/
theorem C3_set_input_image_spec (i : Int) (s : PromptGUI) :
    (0 ≤ i → i < (s.img_paths.length : Int) →
      (set_input_image i s).1.frame_index = i.toNat ∧
      (set_input_image i s).1.selected_points = [] ∧
      (set_input_image i s).1.selected_labels = [] ∧
      (set_input_image i s).2 = some (s.img_paths.getD i.toNat "")) ∧
    ((i < 0 ∨ (s.img_paths.length : Int) ≤ i) →
      (set_input_image i s).1 = s ∧ (set_input_image i s).2 = s.image) := by
  constructor
  · intro h0 hlt
    have hcond : ¬(i < 0 ∨ (s.img_paths.length : Int) ≤ i) := by omega
    simp [set_input_image, hcond, clear_points]
  · intro hcond
    simp [set_input_image, hcond]

/-- C3 witness: the amended theorem applied, in range and out of range, to a
concrete one-frame session. -/
theorem C3_witness :
    (set_input_image 7 { initGUI with img_paths := ["d/a.png"] }).1 =
      { initGUI with img_paths := ["d/a.png"] } ∧
    (set_input_image 0 { initGUI with img_paths := ["d/a.png"] }).1.frame_index
      = 0 := by
  constructor
  · exact ((C3_set_input_image_spec 7
      { initGUI with img_paths := ["d/a.png"] }).2 (by right; decide)).1
  · exact ((C3_set_input_image_spec 0
      { initGUI with img_paths := ["d/a.png"] }).1 (by decide) (by decide)).1

/-- C4 counterexample: adding a point to a fresh session does fail, but with
an `AttributeError` on the unassigned `inference_state`, not with the
explicit "no active session" error the claim states. -/
theorem C4_counterexample :
    (add_point [] 2 3 initGUI).2 =
      Except.error (Err.attributeError "inference_state") ∧
    (add_point [] 2 3 initGUI).2 ≠ Except.error Err.noActiveSession := by
  decide

/-- C4 (amended): whenever no adapter session handle exists (no directory
was loaded and features were never extracted), `add_point` fails with an
unhandled `AttributeError` — not an explicit NoActiveSession error — and the
point and label are still appended before the failure. -/
theorem C4_add_point_no_session (resp : List (Nat × Grid)) (i j : Int)
    (s : PromptGUI) (h : s.inference_state = none) :
    (add_point resp i j s).2 =
      Except.error (Err.attributeError "inference_state") ∧
    (add_point resp i j s).1.selected_points = s.selected_points ++ [(j, i)] ∧
    (add_point resp i j s).1.selected_labels =
      s.selected_labels ++ [s.cur_label_val] := by
  simp [add_point, h]

/-- C4 witness: the amended theorem applied to the fresh session. -/
theorem C4_witness :
    (add_point [] 4 5 initGUI).2 =
      Except.error (Err.attributeError "inference_state") ∧
    (add_point [] 4 5 initGUI).1.selected_points = [(5, 4)] := by
  have h := C4_add_point_no_session [] 4 5 initGUI rfl
  exact ⟨h.1, by rw [h.2.1]; rfl⟩

/-- C5 (code_bug evidence): when the adapter reports zero objects for a
frame (empty `obj_ids`), `np.any([], axis=0)` is the 0-dimensional scalar
`False`, so `run_tracker` stores the 0-dimensional scalar 255 for that frame
instead of a 2-D all-background grid; `save_masks_to_dir`'s own shape check
later rejects exactly such an entry. -/
theorem C5_zero_objects_scalar :
    runTracker [(0, [[[true]]]), (1, [])] =
      [NPArr.grid [[0]], NPArr.scalar 255] ∧
    (writeLoop [("d/b.png", NPArr.scalar 255)]).2 =
      some (Err.valueError "Expected 2-D mask") := by
  have hsort : ([0, 1] : List Nat).mergeSort (fun a b => decide (a ≤ b)) =
      [0, 1] := mergeSortLe_sorted_id _ (by decide)
  constructor
  · simp [runTracker, dictInsert, frameCollapse, toGray, dictLookup, hsort]
  · simp [writeLoop]

/-- C6 (confirmed): with an empty or entirely zero mask list, export returns
one of the two "nothing to export" warnings and touches the filesystem in no
way; otherwise — given the masks are the 2-D grids propagation is meant to
produce, one per frame — it creates the directory and writes one mask file
for every frame, including frames whose masks are individually all zero. -/
theorem C6_save_masks_spec (img_paths : List String) (masks : List NPArr)
    (dir : String) :
    ((∀ m ∈ masks, npAny m = false) →
      (save_masks_to_dir img_paths masks dir).writes = [] ∧
      (save_masks_to_dir img_paths masks dir).madeDir = false ∧
      ((save_masks_to_dir img_paths masks dir).message =
          "No masks to export. Did you run tracking first?" ∨
        (save_masks_to_dir img_paths masks dir).message =
          "All masks are empty – nothing to save.")) ∧
    (masks ≠ [] → (∃ m ∈ masks, npAny m = true) →
      (∀ m ∈ masks, ∃ g, m = NPArr.grid g) →
      masks.length = img_paths.length →
      (save_masks_to_dir img_paths masks dir).error = none ∧
      (save_masks_to_dir img_paths masks dir).madeDir = true ∧
      (save_masks_to_dir img_paths masks dir).writes.length =
        img_paths.length ∧
      ∀ pm ∈ img_paths.zip masks, ∀ g, pm.2 = NPArr.grid g →
        (pathStem pm.1 ++ ".mask.png", g) ∈
          (save_masks_to_dir img_paths masks dir).writes) := by
  constructor
  · intro hA
    by_cases hemp : masks.isEmpty
    · simp [save_masks_to_dir, hemp]
    · have hany : masks.any npAny = false := by
        simp only [List.any_eq_false]
        intro m hm
        simp [hA m hm]
      simp [save_masks_to_dir, hemp, hany]
  · intro hne hex h2d hlen
    have hemp : masks.isEmpty = false := by
      cases masks with
      | nil => exact absurd rfl hne
      | cons a l => rfl
    have hany : masks.any npAny = true := by
      rcases hex with ⟨m, hm, hmt⟩
      exact List.any_eq_true.mpr ⟨m, hm, hmt⟩
    have hzip : ∀ pm ∈ img_paths.zip masks, ∃ g, pm.2 = NPArr.grid g := by
      intro pm hpm
      obtain ⟨p, m⟩ := pm
      exact h2d m (List.of_mem_zip hpm).2
    have hw := writeLoop_all_grids (img_paths.zip masks) hzip
    refine ⟨?_, ?_, ?_, ?_⟩
    · simp [save_masks_to_dir, hemp, hany, hw.1]
    · simp [save_masks_to_dir, hemp, hany]
    · have hzlen : (img_paths.zip masks).length = img_paths.length := by
        simp [List.length_zip, hlen]
      simp [save_masks_to_dir, hemp, hany, hw.2.1, hzlen]
    · intro pm hpm g hg
      have := hw.2.2 pm hpm g hg
      simpa [save_masks_to_dir, hemp, hany] using this

/-- C6 witness: the theorem applied to an all-zero singleton mask list (first
branch) and to a nonzero singleton mask list (second branch). -/
theorem C6_witness :
    (save_masks_to_dir ["a.png"] [NPArr.grid [[0]]] "out").writes = [] ∧
    (save_masks_to_dir ["a.png"] [NPArr.grid [[255]]] "out").writes.length
      = 1 := by
  constructor
  · exact ((C6_save_masks_spec ["a.png"] [NPArr.grid [[0]]] "out").1
      (by decide)).1
  · exact ((C6_save_masks_spec ["a.png"] [NPArr.grid [[255]]] "out").2
      (by decide) ⟨NPArr.grid [[255]], by decide, by decide⟩
      (by
        intro m hm
        rw [List.mem_singleton] at hm
        exact ⟨[[255]], by rw [hm]⟩)
      (by decide)).2.2.1

/-- C7 (confirmed): for every `n ≥ 1` (and any lightness and saturation,
in particular the defaults 0.5 and 0.7), the palette has exactly `n`
entries, entry 0 is pure black, and the function is deterministic — equal
inputs give identical output. -/
theorem C7_palette_spec (n : Nat) (l s : ℚ) (h : 1 ≤ n) :
    (get_hls_palette n l s).length = n ∧
    (get_hls_palette n l s).head? = some (0, 0, 0) ∧
    get_hls_palette n l s = get_hls_palette n l s := by
  refine ⟨?_, ?_, rfl⟩
  · unfold get_hls_palette
    rw [List.length_map, List.length_cons, List.length_map,
      List.length_dropLast, List.length_drop, List.length_map,
      List.length_range]
    omega
  · simp only [get_hls_palette, List.map_cons, List.head?_cons, to255,
      mul_zero, Int.floor_zero, Int.toNat_zero]

/-- C7 witness: the theorem applied at `n = 3` with the default lightness
and saturation. -/
theorem C7_witness :
    (get_hls_palette 3 (1 / 2) (7 / 10)).length = 3 ∧
    (get_hls_palette 3 (1 / 2) (7 / 10)).head? = some (0, 0, 0) :=
  ⟨(C7_palette_spec 3 (1 / 2) (7 / 10) (by decide)).1,
    (C7_palette_spec 3 (1 / 2) (7 / 10) (by decide)).2.1⟩

/-- C8 counterexample: with the binary64 blend factor nearest 0.01 (which
lies in `[0, 1]`) and image and mask pixels both 7, the float64 blend
truncates to 6, which lies strictly below both inputs — so the output is not
pixel-wise between image and mask. -/
theorem C8_counterexample :
    Fl.toQ (rndQ 1 100) = 5764607523034235 / 576460752303423488 ∧
    0 ≤ Fl.toQ (rndQ 1 100) ∧ Fl.toQ (rndQ 1 100) ≤ 1 ∧
    composePixel (rndQ 1 100) 7 7 = 6 ∧
    ¬((7 : Int) ≤ composePixel (rndQ 1 100) 7 7) := by
  have hr : rndQ 1 100 = ⟨5764607523034235, -59⟩ := by decide
  have hc : composePixel (rndQ 1 100) 7 7 = 6 := by decide
  have hq : Fl.toQ (rndQ 1 100) = 5764607523034235 / 576460752303423488 := by
    rw [hr]
    simp only [Fl.toQ]
    norm_num [show Int.toNat 59 = 59 from rfl]
  refine ⟨hq, ?_, ?_, hc, by rw [hc]; decide⟩
  · rw [hq]; norm_num
  · rw [hq]; norm_num

/-- C8 (amended): with blend factor exactly 1.0 the composite returns the
source image pixel unchanged, and with blend factor exactly 0.0 it returns
the color-mask pixel unchanged, for every pair of uint8 pixel values; for
intermediate blend factors the float64 rounding can truncate the output one
level below the pixel-wise minimum of the two inputs, so exact pixel-wise
betweenness does not hold. -/
theorem C8_compose_endpoints :
    ∀ a b : Fin 256,
      composePixel ⟨1, 0⟩ (a : Nat) (b : Nat) = ((a : Nat) : Int) ∧
      composePixel ⟨0, 0⟩ (a : Nat) (b : Nat) = ((b : Nat) : Int) := by
  intro a b
  constructor
  · rw [composePixel_one_eq]
    exact composePixel_one_diag a
  · rw [composePixel_zero_eq]
    exact composePixel_zero_diag b

/-- C9 (confirmed): in every session state reachable from `__init__` by any
sequence of operations, the accumulated points and labels have the same
length. -/
theorem C9_points_labels_invariant (ops : List Op) :
    (runOps ops).selected_points.length =
      (runOps ops).selected_labels.length := by
  suffices h : ∀ (ops : List Op) (s : PromptGUI),
      s.selected_points.length = s.selected_labels.length →
      (ops.foldl step s).selected_points.length =
        (ops.foldl step s).selected_labels.length by
    exact h ops initGUI rfl
  intro ops
  induction ops with
  | nil => intro s hs; exact hs
  | cons op rest ih =>
    intro s hs
    exact ih (step s op) (step_preserves_points_labels s op hs)

/-- C10 (confirmed): `set_img_dir` keeps exactly the directory entries whose
lowercased splitext extension is `.png`, `.jpg` or `.jpeg` (a permutation of
the `isimage`-filtered listing), arranged in lexicographically sorted order
of entry names and prefixed with the directory, and returns their count. -/
theorem C10_set_img_dir_spec (dir : String) (entries : List String)
    (s : PromptGUI) :
    (set_img_dir dir entries s).2 =
      (set_img_dir dir entries s).1.img_paths.length ∧
    ∃ names : List String,
      (set_img_dir dir entries s).1.img_paths =
        names.map (fun p => dir ++ "/" ++ p) ∧
      names.Perm (entries.filter isimage) ∧
      names.Sorted (· ≤ ·) := by
  refine ⟨rfl,
    (entries.mergeSort (fun a b => decide (a ≤ b))).filter isimage, rfl,
    ?_, ?_⟩
  · exact (List.mergeSort_perm entries _).filter isimage
  · have hs := @List.sorted_mergeSort String (fun a b => decide (a ≤ b))
      (fun a b c hab hbc => by
        simp only [decide_eq_true_eq] at *
        exact le_trans hab hbc)
      (fun a b => by
        simp only [Bool.or_eq_true, decide_eq_true_eq]
        exact le_total a b)
      entries
    exact (hs.filter isimage).imp (fun hab => by simpa using hab)
